import Mathlib

/-!
Shallow embedding of `crates/typst-library/src/model/terms.rs`: the term-list
element (`TermsElem`), its item type (`TermItem`), the `Show` implementation
for `Packed<TermsElem>`, and the `cast!` rules for `TermItem`.

Collaborator types (content tree, lengths, style chain, HTML/stack/pad/spacing
primitives) are embedded as free constructors of an inductive `Content` type:
the show transformation only builds these values, it never inspects them, so a
free-constructor embedding is exact for all structural properties of the
output tree.
-/

namespace Terms

/-- Lengths (`typst_library::layout::Length`): an absolute part plus a
font-relative `em` part.  `Em::new(x).into()` is `⟨0, x⟩`.  Arithmetic is
componentwise; `Numeric::is_zero` holds when both components are zero. -/
structure Length where
  abs : ℚ
  em : ℚ
deriving DecidableEq, Repr

instance : Add Length := ⟨fun a b => ⟨a.abs + b.abs, a.em + b.em⟩⟩
instance : Neg Length := ⟨fun a => ⟨-a.abs, -a.em⟩⟩

/-- `Em::new(x).into()`: a purely font-relative length. -/
def Em (x : ℚ) : Length := ⟨0, x⟩

/-- `Numeric::is_zero` for `Length`. -/
def Length.isZero (l : Length) : Bool := l.abs == 0 && l.em == 0

/-- `Smart<T>`: either `Auto` or a concrete value (typst `foundations::Smart`). -/
inductive Smart (α : Type) where
  | auto
  | custom (v : α)
deriving DecidableEq, Repr

/-- `Smart::unwrap_or_else`. -/
def Smart.unwrapOrElse {α : Type} : Smart α → (Unit → α) → α
  | .auto, f => f ()
  | .custom v, _ => v

/-- The sides enumeration (`layout::Side`). -/
inductive Side where
  | left
  | top
  | right
  | bottom
deriving DecidableEq, Repr

/-- Text direction (`layout::Dir`), restricted to the horizontal directions
that `TextElem::dir` admits. -/
inductive Dir where
  | ltr
  | rtl
deriving DecidableEq, Repr

/-- `Dir::start`: the side at which text in this direction begins. -/
def Dir.start : Dir → Side
  | .ltr => .left
  | .rtl => .right

/-- `Sides<Option<Rel>>`: one optional value per side. -/
structure Sides where
  left : Option Length
  top : Option Length
  right : Option Length
  bottom : Option Length
deriving DecidableEq, Repr

/-- `Sides::default()` for the optional instantiation: all sides unset. -/
def Sides.default : Sides := ⟨none, none, none, none⟩

/-- `Sides::with(side, value)`: set one side (used with `Get::get_mut`). -/
def Sides.setSide (s : Sides) : Side → Length → Sides
  | .left, v => { s with left := some v }
  | .top, v => { s with top := some v }
  | .right, v => { s with right := some v }
  | .bottom, v => { s with bottom := some v }

/-- The HTML tags used by the show rule (`html::tag`). -/
inductive HtmlTag where
  | dl
  | dt
  | dd
deriving DecidableEq, Repr

/-- Source spans, abstracted to naturals; `0` is the detached span. -/
abbrev Span := Nat

mutual
/-- The content tree.  One constructor per element kind the show rule builds:
`Content::sequence`, `StrongElem`, `HElem` (amount, weak), `VElem` (amount,
weak, attach), `ParbreakElem`, `HtmlElem` (tag, optional body), `StackElem`
(spacing, children), `PadElem` (`Content::padded`), a style wrapper for
`.set(TermsElem::within, _)`, a span wrapper for `.spanned(_)`, a packed
`TermItem` element, and an opaque leaf for arbitrary user content. -/
inductive Content where
  | text (s : String)
  | sequence (children : List Content)
  | strong (body : Content)
  | h (amount : Length) (weak : Bool)
  | v (amount : Length) (weak : Bool) (attach : Bool)
  | parbreak
  | html (t : HtmlTag) (body : Option Content)
  | stack (spacing : Option Length) (children : List StackChild)
  | padded (padding : Sides) (body : Content)
  | setWithin (value : Bool) (body : Content)
  | spanned (sp : Span) (body : Content)
  | termItemC (term : Content) (description : Content)

/-- `layout::StackChild`: spacing or an opaque block. -/
inductive StackChild where
  | spacing (amount : Length)
  | block (body : Content)
end

/-- `Content::span`: the span attached to a content, detached if none. -/
def Content.span : Content → Span
  | .spanned sp _ => sp
  | _ => 0

/-- `Add for Content`: sequence concatenation, merging existing sequences. -/
def Content.add : Content → Content → Content
  | .sequence xs, .sequence ys => .sequence (xs ++ ys)
  | .sequence xs, b => .sequence (xs ++ [b])
  | a, .sequence ys => .sequence (a :: ys)
  | a, b => .sequence [a, b]

instance : Add Content := ⟨Content.add⟩

/-- `ParbreakElem::shared()`: the shared paragraph-break content. -/
def parbreakShared : Content := Content.parbreak

/-- A term list item (`TermItem`): a required term and a required description. -/
structure TermItem where
  term : Content
  description : Content

/-- The `#[elem]`-generated constructor `TermItem::new`. -/
def TermItem.new (term description : Content) : TermItem := ⟨term, description⟩

/-- The term-list element (`TermsElem`).  Each settable field is `none` when
not given at the construction site (it then resolves through the style chain
with the documented default); `children` is the ordered item sequence.  The
ghost field `within` has no construction-site value. -/
structure TermsElem where
  tight : Option Bool
  separator : Option Content
  indent : Option Length
  hanging_indent : Option Length
  spacing : Option (Smart Length)
  children : List TermItem

/-- The active output target (`TargetElem::target`). -/
inductive Target where
  | paged
  | html
deriving DecidableEq, Repr

/-- `Target::is_html`. -/
def Target.isHtml : Target → Bool
  | .html => true
  | .paged => false

/-- The style context seen by the show rule, already cascaded: per-field
optional set-rule values for the five `TermsElem` fields, plus the externally
resolved collaborator values the rule reads (`TargetElem::target`,
`ParElem::leading`, `ParElem::spacing`, `TextElem::dir`). -/
structure StyleChain where
  target : Target
  tight : Option Bool
  separator : Option Content
  indent : Option Length
  hanging_indent : Option Length
  spacing : Option (Smart Length)
  parLeading : Length
  parSpacing : Length
  dir : Dir

/-- Default for `separator`: `HElem::new(Em::new(0.6).into()).with_weak(true)`. -/
def defaultSeparator : Content := Content.h (Em (3/5)) true

/-- `self.tight.get(styles)`: construction-site value, else set rule, else the
`#[default(true)]`. -/
def TermsElem.getTight (self : TermsElem) (styles : StyleChain) : Bool :=
  ((self.tight).orElse (fun _ => styles.tight)).getD true

/-- `self.separator.get_ref(styles)` with its `#[default]`. -/
def TermsElem.getSeparator (self : TermsElem) (styles : StyleChain) : Content :=
  ((self.separator).orElse (fun _ => styles.separator)).getD defaultSeparator

/-- `self.indent.get(styles)`; the default for a `Length` field is zero. -/
def TermsElem.getIndent (self : TermsElem) (styles : StyleChain) : Length :=
  ((self.indent).orElse (fun _ => styles.indent)).getD ⟨0, 0⟩

/-- `self.hanging_indent.get(styles)` with `#[default(Em::new(2.0).into())]`. -/
def TermsElem.getHangingIndent (self : TermsElem) (styles : StyleChain) : Length :=
  ((self.hanging_indent).orElse (fun _ => styles.hanging_indent)).getD (Em 2)

/-- `self.spacing.get(styles)`; the default for a `Smart` field is `Auto`. -/
def TermsElem.getSpacing (self : TermsElem) (styles : StyleChain) : Smart Length :=
  ((self.spacing).orElse (fun _ => styles.spacing)).getD .auto

/-- The `SourceResult` return type of `Show::show`; errors are diagnostics,
abstracted to their message. -/
abbrev SourceResult (α : Type) := Except String α

/-- `Show for Packed<TermsElem>::show`, transcribed line by line from
`terms.rs:120-206`.  `span` is `self.span()` of the packed element. -/
def TermsElem.show (self : TermsElem) (span : Span) (styles : StyleChain) :
    SourceResult Content :=
  let tight := self.getTight styles
  if (styles.target).isHtml then
    .ok (Content.html .dl (some (Content.sequence (self.children.flatMap fun item =>
      -- Text in wide term lists shall always turn into paragraphs.
      let description :=
        if !tight then item.description + parbreakShared else item.description
      [Content.spanned (Content.span item.term)
          (Content.html .dt (some item.term)),
        Content.spanned (Content.span item.description)
          (Content.html .dd (some description))]))))
  else
    let separator := self.getSeparator styles
    let indent := self.getIndent styles
    let hanging_indent := self.getHangingIndent styles
    let gutter := (self.getSpacing styles).unwrapOrElse fun _ =>
      if tight then styles.parLeading else styles.parSpacing
    let pad := hanging_indent + indent
    let unpad : Option Content :=
      if !(hanging_indent.isZero) then
        some (Content.spanned span (Content.h (-hanging_indent) false))
      else none
    let children := self.children.map fun child =>
      StackChild.block (Content.sequence
        (unpad.toList ++
          [Content.strong child.term, separator, child.description] ++
          -- Text in wide term lists shall always turn into paragraphs.
          (if !tight then [parbreakShared] else [])))
    let padding := Sides.default.setSide ((styles.dir).start) pad
    let realized :=
      Content.setWithin true (Content.padded padding
        (Content.spanned span (Content.stack (some gutter) children)))
    if tight then
      let spacing := (self.getSpacing styles).unwrapOrElse fun _ => styles.parLeading
      let v := Content.spanned span (Content.v spacing true true)
      .ok (v + realized)
    else
      .ok realized

/-- `Content::unpack::<TermItem>`: succeeds exactly when the content is a
packed `TermItem` element (its span, a field in the source and a wrapper
here, does not matter). -/
def Content.unpackTermItem : Content → Option TermItem
  | .termItemC t d => some (TermItem.new t d)
  | .spanned _ body => body.unpackTermItem
  | _ => none

/-- The two value shapes the `cast!` rules for `TermItem` distinguish: an
array (whose elements have already been cast to content, which is what
`a.cast()?` produces) or a plain content value. -/
inductive Value where
  | arr (xs : List Content)
  | content (c : Content)

/-- The `cast!` rules for `TermItem` (`terms.rs:220-231`): a two-element
array becomes `TermItem::new` of its entries, any other arity bails with the
shape error; a content value is unpacked, or fails with the type error. -/
def castTermItem : Value → Except String TermItem
  | .arr xs =>
    match xs with
    | [a, b] => .ok (TermItem.new a b)
    | _ => .error ("array must contain exactly two entries")
  | .content v =>
    match v.unpackTermItem with
    | some item => .ok item
    | none => .error ("expected term item or array")

/-! ### Observers on the produced content tree

These are verification-side functions: they parse the output of the show
transformation back into its parts, so that the theorems below speak about
the output tree itself rather than about the transformation's internals. -/

/-- The content of a successful show result (`show` is proved total below). -/
def TermsElem.showContent (self : TermsElem) (span : Span) (styles : StyleChain) :
    Content :=
  match self.show span styles with
  | .ok c => c
  | .error _ => Content.sequence []

/-- Observer: the child list of the definition-list container that the
markup branch produces. -/
def dlBody : Content → Option (List Content)
  | .html .dl (some (.sequence l)) => some l
  | _ => none

/-- Observer: the gap and child list of the stacking container inside the
layout-branch output, looking through the `within` style, the padding, the
span, and the optional leading vertical gap of a tight list. -/
def stackOut : Content → Option (Option Length × List StackChild)
  | .setWithin true (.padded _ (.spanned _ (.stack g bs))) => some (g, bs)
  | .sequence [_, .setWithin true (.padded _ (.spanned _ (.stack g bs)))] =>
      some (g, bs)
  | _ => none

/-- Observer: the padding applied around the stacking container in the
layout-branch output. -/
def padOut : Content → Option Sides
  | .setWithin true (.padded p _) => some p
  | .sequence [_, .setWithin true (.padded p _)] => some p
  | _ => none

/-- The label/value pair the markup branch emits for one item: a `dt`
wrapping the term and a `dd` wrapping the description (with a paragraph
break appended when the list is wide), each spanned from the original
content. -/
def markupPair (tight : Bool) (item : TermItem) : List Content :=
  [Content.spanned (Content.span item.term)
      (Content.html .dt (some item.term)),
    Content.spanned (Content.span item.description)
      (Content.html .dd (some
        (if !tight then item.description + parbreakShared else item.description)))]

/-- The opaque stacked block the layout branch emits for one item: the
optional negative-offset fragment, the strengthened term, the separator, the
description, and a paragraph break when the list is wide. -/
def layoutBlock (tight : Bool) (unpad : Option Content) (separator : Content)
    (child : TermItem) : StackChild :=
  StackChild.block (Content.sequence
    (unpad.toList ++
      [Content.strong child.term, separator, child.description] ++
      (if !tight then [parbreakShared] else [])))

/-- The resolved negative-offset fragment: present exactly when the resolved
hanging indent is nonzero, with a shift of its negation. -/
def TermsElem.resolvedUnpad (self : TermsElem) (span : Span) (styles : StyleChain) :
    Option Content :=
  if !((self.getHangingIndent styles).isZero) then
    some (Content.spanned span (Content.h (-(self.getHangingIndent styles)) false))
  else none

/-- The resolved inter-item gap: the explicit `spacing` when set, else the
paragraph leading (tight) or the paragraph spacing (wide). -/
def TermsElem.resolvedGutter (self : TermsElem) (styles : StyleChain) : Length :=
  (self.getSpacing styles).unwrapOrElse fun _ =>
    if self.getTight styles then styles.parLeading else styles.parSpacing

/-- The magnitude of the leading vertical gap of a tight list: the explicit
`spacing` when set, else the paragraph leading. -/
def TermsElem.tightGap (self : TermsElem) (styles : StyleChain) : Length :=
  (self.getSpacing styles).unwrapOrElse fun _ => styles.parLeading

/-- The padded, `within`-marked stacking container the layout branch builds
(before the optional tight-list vertical gap is prepended). -/
def TermsElem.layoutStack (self : TermsElem) (span : Span) (styles : StyleChain) :
    Content :=
  Content.setWithin true (Content.padded
    (Sides.default.setSide ((styles.dir).start)
      (self.getHangingIndent styles + self.getIndent styles))
    (Content.spanned span (Content.stack (some (self.resolvedGutter styles))
      (self.children.map (layoutBlock (self.getTight styles)
        (self.resolvedUnpad span styles) (self.getSeparator styles))))))

/-! ### Characterization lemmas (shared helpers) -/

theorem Content.add_eq (a b : Content) : a + b = Content.add a b := rfl

theorem Content.add_spanned_setWithin (s : Span) (b : Content) (w : Bool) (c : Content) :
    Content.spanned s b + Content.setWithin w c =
      Content.sequence [Content.spanned s b, Content.setWithin w c] := rfl

theorem TermsElem.show_html_eq (self : TermsElem) (sp : Span) (styles : StyleChain)
    (h : (styles.target).isHtml = true) :
    self.show sp styles = .ok (Content.html .dl (some (Content.sequence
      (self.children.flatMap (markupPair (self.getTight styles)))))) := by
  unfold TermsElem.show
  rw [h]
  rfl

theorem TermsElem.show_layout_eq (self : TermsElem) (sp : Span) (styles : StyleChain)
    (h : (styles.target).isHtml = false) :
    self.show sp styles = .ok
      (if self.getTight styles then
        Content.sequence [Content.spanned sp (Content.v (self.tightGap styles) true true),
          self.layoutStack sp styles]
      else self.layoutStack sp styles) := by
  cases ht : self.getTight styles <;>
    simp [TermsElem.show, h, ht, TermsElem.layoutStack, TermsElem.resolvedGutter,
      TermsElem.tightGap, TermsElem.resolvedUnpad, layoutBlock,
      Content.add_spanned_setWithin]

theorem TermsElem.showContent_html (self : TermsElem) (sp : Span) (styles : StyleChain)
    (h : (styles.target).isHtml = true) :
    self.showContent sp styles = Content.html .dl (some (Content.sequence
      (self.children.flatMap (markupPair (self.getTight styles))))) := by
  unfold TermsElem.showContent
  rw [self.show_html_eq sp styles h]

theorem TermsElem.showContent_layout (self : TermsElem) (sp : Span) (styles : StyleChain)
    (h : (styles.target).isHtml = false) :
    self.showContent sp styles =
      (if self.getTight styles then
        Content.sequence [Content.spanned sp (Content.v (self.tightGap styles) true true),
          self.layoutStack sp styles]
      else self.layoutStack sp styles) := by
  unfold TermsElem.showContent
  rw [self.show_layout_eq sp styles h]

theorem stackOut_showContent (self : TermsElem) (sp : Span) (styles : StyleChain)
    (h : (styles.target).isHtml = false) :
    stackOut (self.showContent sp styles) =
      some (some (self.resolvedGutter styles),
        self.children.map (layoutBlock (self.getTight styles)
          (self.resolvedUnpad sp styles) (self.getSeparator styles))) := by
  rw [self.showContent_layout sp styles h]
  cases ht : self.getTight styles <;> simp [ht, TermsElem.layoutStack, stackOut]

theorem padOut_showContent (self : TermsElem) (sp : Span) (styles : StyleChain)
    (h : (styles.target).isHtml = false) :
    padOut (self.showContent sp styles) =
      some (Sides.default.setSide ((styles.dir).start)
        (self.getHangingIndent styles + self.getIndent styles)) := by
  rw [self.showContent_layout sp styles h]
  cases ht : self.getTight styles <;> simp [ht, TermsElem.layoutStack, padOut]

theorem flatMap_markupPair_length (t : Bool) (l : List TermItem) :
    (l.flatMap (markupPair t)).length = 2 * l.length := by
  induction l with
  | nil => simp
  | cons a tl ih =>
    simp only [List.flatMap_cons, List.length_append, List.length_cons, ih, markupPair]
    simp
    ring

theorem length_add_comm (a b : Length) : a + b = b + a := by
  show (⟨a.abs + b.abs, a.em + b.em⟩ : Length) = ⟨b.abs + a.abs, b.em + a.em⟩
  rw [add_comm a.abs, add_comm a.em]

/-- `markupPair`, with the tight conditional written the way the claims read
it: the term-value body is the untouched description when tight, and the
description with exactly one appended paragraph break when wide. -/
def markupPairSpec (tight : Bool) (item : TermItem) : List Content :=
  [Content.spanned (Content.span item.term)
      (Content.html .dt (some item.term)),
    Content.spanned (Content.span item.description)
      (Content.html .dd (some
        (if tight then item.description else item.description + parbreakShared)))]

theorem markupPair_eq (t : Bool) : markupPair t = markupPairSpec t := by
  funext item
  cases t <;> simp [markupPair, markupPairSpec]

/-- `layoutBlock`, with the tight conditional written the way the claims read
it: the inserted tail after the description is empty when tight and exactly
one paragraph break when wide. -/
def layoutBlockSpec (tight : Bool) (unpad : Option Content) (separator : Content)
    (child : TermItem) : StackChild :=
  StackChild.block (Content.sequence
    (unpad.toList ++
      [Content.strong child.term, separator, child.description] ++
      (if tight then [] else [parbreakShared])))

theorem layoutBlock_eq (t : Bool) (u : Option Content) (s : Content) :
    layoutBlock t u s = layoutBlockSpec t u s := by
  funext child
  cases t <;> simp [layoutBlock, layoutBlockSpec]

/-! ### Sample inputs for the witness theorems -/

def itemA : TermItem := TermItem.new (Content.text ("T1")) (Content.text ("D1"))

def itemB : TermItem := TermItem.new (Content.text ("T2")) (Content.text ("D2"))

def elemAB : TermsElem := ⟨none, none, none, none, none, [itemA, itemB]⟩

def elemEmpty : TermsElem := ⟨none, none, none, none, none, []⟩

def stylesHtml : StyleChain :=
  ⟨Target.html, none, none, none, none, none, ⟨13, 0⟩, ⟨17, 0⟩, Dir.ltr⟩

/-- A second markup-target context, differing from `stylesHtml` in `indent`,
`hanging_indent`, `separator`, `spacing`, paragraph metrics and direction. -/
def stylesHtmlB : StyleChain :=
  ⟨Target.html, none, some Content.parbreak, some ⟨5, 0⟩, some ⟨0, 0⟩,
    some (Smart.custom ⟨9, 9⟩), ⟨1, 2⟩, ⟨3, 4⟩, Dir.rtl⟩

def stylesPaged : StyleChain :=
  ⟨Target.paged, none, none, none, none, none, ⟨13, 0⟩, ⟨17, 0⟩, Dir.ltr⟩

def stylesPagedWide : StyleChain :=
  ⟨Target.paged, some false, none, none, some ⟨0, 0⟩, none, ⟨13, 0⟩, ⟨17, 0⟩, Dir.rtl⟩

/-! ### The claims -/

/-- C1: for every term-list node with a non-empty item sequence and every
style context, the show transformation's output contains exactly one
term-label/term-value pair per input item (semantic-markup branch) or exactly
one stacked block per input item (generic-layout branch), in the same order
as the input items. -/
theorem terms_item_count_order (self : TermsElem) (sp : Span) (styles : StyleChain)
    (_hne : self.children ≠ []) :
    (if (styles.target).isHtml = true then
      dlBody (self.showContent sp styles) =
          some (self.children.flatMap (markupPair (self.getTight styles))) ∧
        (self.children.flatMap (markupPair (self.getTight styles))).length =
          2 * self.children.length
    else
      (stackOut (self.showContent sp styles)).map Prod.snd =
          some (self.children.map (layoutBlock (self.getTight styles)
            (self.resolvedUnpad sp styles) (self.getSeparator styles))) ∧
        (self.children.map (layoutBlock (self.getTight styles)
            (self.resolvedUnpad sp styles) (self.getSeparator styles))).length =
          self.children.length) := by
  cases hh : (styles.target).isHtml
  · simp only [Bool.false_eq_true, if_false]
    rw [stackOut_showContent self sp styles hh]
    simp
  · simp only [if_true]
    rw [TermsElem.showContent_html self sp styles hh]
    exact ⟨rfl, flatMap_markupPair_length _ _⟩

/-- C1 witness: the two-item list under the markup target. -/
theorem terms_item_count_order_witness :
    elemAB.children ≠ [] ∧
      (if (stylesHtml.target).isHtml = true then
        dlBody (elemAB.showContent 0 stylesHtml) =
            some (elemAB.children.flatMap (markupPair (elemAB.getTight stylesHtml))) ∧
          (elemAB.children.flatMap (markupPair (elemAB.getTight stylesHtml))).length =
            2 * elemAB.children.length
      else
        (stackOut (elemAB.showContent 0 stylesHtml)).map Prod.snd =
            some (elemAB.children.map (layoutBlock (elemAB.getTight stylesHtml)
              (elemAB.resolvedUnpad 0 stylesHtml) (elemAB.getSeparator stylesHtml))) ∧
          (elemAB.children.map (layoutBlock (elemAB.getTight stylesHtml)
              (elemAB.resolvedUnpad 0 stylesHtml) (elemAB.getSeparator stylesHtml))).length =
            elemAB.children.length) :=
  ⟨by simp [elemAB], terms_item_count_order elemAB 0 stylesHtml (by simp [elemAB])⟩

/-- C2: with resolved `tight = true` no paragraph break is inserted after any
description in either branch (the term-value body is the untouched
description; the stacked block's inserted tail is empty); with
`tight = false` exactly one paragraph break is appended to every term-value
body (markup branch) and inserted after every description (layout branch). -/
theorem terms_parbreak_insertion (self : TermsElem) (sp : Span) (styles : StyleChain) :
    (if (styles.target).isHtml = true then
      dlBody (self.showContent sp styles) =
        some (self.children.flatMap (markupPairSpec (self.getTight styles)))
    else
      (stackOut (self.showContent sp styles)).map Prod.snd =
        some (self.children.map (layoutBlockSpec (self.getTight styles)
          (self.resolvedUnpad sp styles) (self.getSeparator styles)))) := by
  cases hh : (styles.target).isHtml
  · simp only [Bool.false_eq_true, if_false]
    rw [stackOut_showContent self sp styles hh, layoutBlock_eq]
    rfl
  · simp only [if_true]
    rw [TermsElem.showContent_html self sp styles hh]
    simp only [dlBody]
    rw [markupPair_eq]

/-- C3: the show transformation is total: for every node and style context it
returns a successful result, never an error. -/
theorem terms_show_total (self : TermsElem) (sp : Span) (styles : StyleChain) :
    ∃ c, self.show sp styles = .ok c := by
  cases hh : (styles.target).isHtml
  · exact ⟨_, self.show_layout_eq sp styles hh⟩
  · exact ⟨_, self.show_html_eq sp styles hh⟩

/-- C4: casting to a term item: a two-element array succeeds and equals the
explicit two-field constructor on the same values; any other arity fails with
the shape error demanding exactly two entries; a content value wrapping a
term item is unwrapped; any other content value fails with the
"expected term item" error. -/
theorem termItem_cast_spec :
    (∀ a b : Content, castTermItem (.arr [a, b]) = .ok (TermItem.new a b)) ∧
      (∀ xs : List Content, xs.length ≠ 2 →
        castTermItem (.arr xs) = .error ("array must contain exactly two entries")) ∧
      (∀ t d : Content,
        castTermItem (.content (Content.termItemC t d)) = .ok (TermItem.new t d)) ∧
      (∀ c : Content, c.unpackTermItem = none →
        castTermItem (.content c) = .error ("expected term item or array")) := by
  refine ⟨fun a b => rfl, fun xs hxs => ?_, fun t d => rfl, fun c hc => ?_⟩
  · match xs with
    | [] => rfl
    | [a] => rfl
    | [a, b] => exact absurd rfl hxs
    | a :: b :: c :: t => rfl
  · simp [castTermItem, hc]

/-- C4 witness: a three-element array hits the shape error, a plain text
content hits the type error, and a two-element array matches the explicit
constructor. -/
theorem termItem_cast_spec_witness :
    ([Content.text ("a"), Content.text ("b"), Content.text ("c")].length ≠ 2) ∧
      castTermItem (.arr [Content.text ("a"), Content.text ("b"), Content.text ("c")]) =
        .error ("array must contain exactly two entries") ∧
      (Content.text ("x")).unpackTermItem = none ∧
      castTermItem (.content (Content.text ("x"))) =
        .error ("expected term item or array") ∧
      castTermItem (.arr [Content.text ("a"), Content.text ("b")]) =
        .ok (TermItem.new (Content.text ("a")) (Content.text ("b"))) :=
  ⟨by simp, termItem_cast_spec.2.1 _ (by simp), rfl,
    termItem_cast_spec.2.2.2 _ rfl, termItem_cast_spec.1 _ _⟩

/-- C5: in the layout branch the gap passed to the stacking container is the
explicitly resolved `spacing` when set, else the paragraph leading when tight
and the paragraph spacing when wide. -/
theorem terms_gutter_spec (self : TermsElem) (sp : Span) (styles : StyleChain)
    (h : (styles.target).isHtml = false) :
    (stackOut (self.showContent sp styles)).map Prod.fst =
      some (some (match self.getSpacing styles with
        | .custom v => v
        | .auto =>
          if self.getTight styles then styles.parLeading else styles.parSpacing)) := by
  rw [stackOut_showContent self sp styles h]
  cases hs : self.getSpacing styles <;>
    simp [TermsElem.resolvedGutter, hs, Smart.unwrapOrElse]

/-- C5 witness: the two-item list under the paged target with `spacing`
unset and `tight` defaulted, so the gap falls back to the paragraph leading. -/
theorem terms_gutter_spec_witness :
    (stylesPaged.target).isHtml = false ∧
      (stackOut (elemAB.showContent 0 stylesPaged)).map Prod.fst =
        some (some (match elemAB.getSpacing stylesPaged with
          | .custom v => v
          | .auto =>
            if elemAB.getTight stylesPaged then stylesPaged.parLeading
            else stylesPaged.parSpacing)) :=
  ⟨rfl, terms_gutter_spec elemAB 0 stylesPaged rfl⟩

/-- C6: in the layout branch, a zero resolved `hanging_indent` means no
horizontal-shift fragment is prepended to any item's sequence; a nonzero one
means a shift of exactly `-hanging_indent` is prepended to every item's
sequence. -/
theorem terms_hanging_unpad (self : TermsElem) (sp : Span) (styles : StyleChain)
    (h : (styles.target).isHtml = false) :
    (if (self.getHangingIndent styles).isZero = true then
      (stackOut (self.showContent sp styles)).map Prod.snd =
        some (self.children.map (layoutBlockSpec (self.getTight styles) none
          (self.getSeparator styles)))
    else
      (stackOut (self.showContent sp styles)).map Prod.snd =
        some (self.children.map (layoutBlockSpec (self.getTight styles)
          (some (Content.spanned sp
            (Content.h (-(self.getHangingIndent styles)) false)))
          (self.getSeparator styles)))) := by
  cases hz : (self.getHangingIndent styles).isZero
  · simp only [Bool.false_eq_true, if_false]
    rw [stackOut_showContent self sp styles h, layoutBlock_eq]
    simp [TermsElem.resolvedUnpad, hz]
  · simp only [if_true]
    rw [stackOut_showContent self sp styles h, layoutBlock_eq]
    simp [TermsElem.resolvedUnpad, hz]

/-- C6 witness: under the paged target with the default (nonzero) hanging
indent, every block starts with the negative shift. -/
theorem terms_hanging_unpad_witness :
    (stylesPaged.target).isHtml = false ∧
      (if (elemAB.getHangingIndent stylesPaged).isZero = true then
        (stackOut (elemAB.showContent 0 stylesPaged)).map Prod.snd =
          some (elemAB.children.map (layoutBlockSpec (elemAB.getTight stylesPaged) none
            (elemAB.getSeparator stylesPaged)))
      else
        (stackOut (elemAB.showContent 0 stylesPaged)).map Prod.snd =
          some (elemAB.children.map (layoutBlockSpec (elemAB.getTight stylesPaged)
            (some (Content.spanned 0
              (Content.h (-(elemAB.getHangingIndent stylesPaged)) false)))
            (elemAB.getSeparator stylesPaged)))) :=
  ⟨rfl, terms_hanging_unpad elemAB 0 stylesPaged rfl⟩

/-- C7: the padding around the stacking container sits on the start edge of
the resolved text direction — the left side under left-to-right, the right
side under right-to-left — and in both cases its magnitude is
`indent + hanging_indent`. -/
theorem terms_padding_direction (self : TermsElem) (sp : Span) (styles : StyleChain)
    (h : (styles.target).isHtml = false) :
    ∃ pads, padOut (self.showContent sp styles) = some pads ∧
      (styles.dir = Dir.ltr →
        pads = ⟨some (self.getIndent styles + self.getHangingIndent styles),
          none, none, none⟩) ∧
      (styles.dir = Dir.rtl →
        pads = ⟨none, none,
          some (self.getIndent styles + self.getHangingIndent styles), none⟩) := by
  refine ⟨_, padOut_showContent self sp styles h, ?_, ?_⟩ <;> intro hd <;>
    rw [hd] <;> simp [Sides.setSide, Sides.default, Dir.start, length_add_comm]

/-- C7 witness: the two-item list under the paged target in a right-to-left
direction context pads the right side. -/
theorem terms_padding_direction_witness :
    (stylesPagedWide.target).isHtml = false ∧
      ∃ pads, padOut (elemAB.showContent 0 stylesPagedWide) = some pads ∧
        (stylesPagedWide.dir = Dir.ltr →
          pads = ⟨some (elemAB.getIndent stylesPagedWide +
            elemAB.getHangingIndent stylesPagedWide), none, none, none⟩) ∧
        (stylesPagedWide.dir = Dir.rtl →
          pads = ⟨none, none, some (elemAB.getIndent stylesPagedWide +
            elemAB.getHangingIndent stylesPagedWide), none⟩) :=
  ⟨rfl, terms_padding_direction elemAB 0 stylesPagedWide rfl⟩

/-- C8: two style contexts that both target semantic markup and agree on the
resolved `tight` yield identical show output for the same node, whatever
their `indent`, `hanging_indent`, `separator` (or any other field): the
markup branch never consults those fields. -/
theorem terms_markup_purity (self : TermsElem) (sp : Span) (s1 s2 : StyleChain)
    (h1 : (s1.target).isHtml = true) (h2 : (s2.target).isHtml = true)
    (ht : self.getTight s1 = self.getTight s2) :
    self.show sp s1 = self.show sp s2 := by
  rw [self.show_html_eq sp s1 h1, self.show_html_eq sp s2 h2, ht]

/-- C8 witness: `stylesHtml` and `stylesHtmlB` differ in `indent`,
`hanging_indent`, `separator`, `spacing`, paragraph metrics and direction,
yet the markup output is identical. -/
theorem terms_markup_purity_witness :
    (stylesHtml.target).isHtml = true ∧ (stylesHtmlB.target).isHtml = true ∧
      elemAB.getTight stylesHtml = elemAB.getTight stylesHtmlB ∧
      elemAB.show 0 stylesHtml = elemAB.show 0 stylesHtmlB :=
  ⟨rfl, rfl, rfl, terms_markup_purity elemAB 0 stylesHtml stylesHtmlB rfl rfl rfl⟩

/-- C9: in the layout branch a tight list — and only a tight list — is the
stacking container prefixed by a weak, attachable vertical gap whose
magnitude is the explicit `spacing` when set and the paragraph leading
otherwise; a wide list is the bare stacking container. -/
theorem terms_tight_gap (self : TermsElem) (sp : Span) (styles : StyleChain)
    (h : (styles.target).isHtml = false) :
    (if self.getTight styles = true then
      self.showContent sp styles =
        Content.sequence
          [Content.spanned sp (Content.v
            (match self.getSpacing styles with
              | .custom v => v
              | .auto => styles.parLeading) true true),
            self.layoutStack sp styles]
    else
      self.showContent sp styles = self.layoutStack sp styles) := by
  rw [TermsElem.showContent_layout self sp styles h]
  cases ht : self.getTight styles
  · simp [ht]
  · simp only [ht, if_true]
    cases hs : self.getSpacing styles <;>
      simp [TermsElem.tightGap, hs, Smart.unwrapOrElse]

/-- C9 witness: the two-item list under the paged target is tight by default
and gets the leading-sized weak attachable gap. -/
theorem terms_tight_gap_witness :
    (stylesPaged.target).isHtml = false ∧
      (if elemAB.getTight stylesPaged = true then
        elemAB.showContent 0 stylesPaged =
          Content.sequence
            [Content.spanned 0 (Content.v
              (match elemAB.getSpacing stylesPaged with
                | .custom v => v
                | .auto => stylesPaged.parLeading) true true),
              elemAB.layoutStack 0 stylesPaged]
      else
        elemAB.showContent 0 stylesPaged = elemAB.layoutStack 0 stylesPaged) :=
  ⟨rfl, terms_tight_gap elemAB 0 stylesPaged rfl⟩

/-- C10: an empty item sequence still renders successfully in both branches —
the markup branch yields a definition-list container with an empty body, the
layout branch a stacking container with zero blocks, still prefixed by the
weak vertical gap when tight. -/
theorem terms_empty_items (self : TermsElem) (sp : Span) (styles : StyleChain)
    (hempty : self.children = []) :
    (∃ c, self.show sp styles = .ok c) ∧
      (if (styles.target).isHtml = true then
        self.showContent sp styles = Content.html .dl (some (Content.sequence []))
      else
        stackOut (self.showContent sp styles) =
            some (some (self.resolvedGutter styles), []) ∧
          (self.getTight styles = true →
            self.showContent sp styles =
              Content.sequence
                [Content.spanned sp (Content.v (self.tightGap styles) true true),
                  self.layoutStack sp styles])) := by
  constructor
  · cases hh : (styles.target).isHtml
    · exact ⟨_, self.show_layout_eq sp styles hh⟩
    · exact ⟨_, self.show_html_eq sp styles hh⟩
  · cases hh : (styles.target).isHtml
    · simp only [Bool.false_eq_true, if_false]
      constructor
      · rw [stackOut_showContent self sp styles hh]
        simp [hempty]
      · intro ht
        rw [TermsElem.showContent_layout self sp styles hh]
        simp [ht]
    · simp only [if_true]
      rw [TermsElem.showContent_html self sp styles hh]
      simp [hempty]

/-- C10 witness: the empty list under the paged target. -/
theorem terms_empty_items_witness :
    elemEmpty.children = [] ∧
      (∃ c, elemEmpty.show 0 stylesPaged = .ok c) ∧
      (if (stylesPaged.target).isHtml = true then
        elemEmpty.showContent 0 stylesPaged = Content.html .dl (some (Content.sequence []))
      else
        stackOut (elemEmpty.showContent 0 stylesPaged) =
            some (some (elemEmpty.resolvedGutter stylesPaged), []) ∧
          (elemEmpty.getTight stylesPaged = true →
            elemEmpty.showContent 0 stylesPaged =
              Content.sequence
                [Content.spanned 0 (Content.v (elemEmpty.tightGap stylesPaged) true true),
                  elemEmpty.layoutStack 0 stylesPaged])) :=
  ⟨rfl, (terms_empty_items elemEmpty 0 stylesPaged rfl).1,
    (terms_empty_items elemEmpty 0 stylesPaged rfl).2⟩

end Terms
